import Mathlib

/-!
# Stakeholder map (`public/app.js`)

A shallow embedding of the record store, the table and tooltip markup and the
radial layout of `public/app.js`, with the properties of the specification
stated over it.

Conventions of the embedding.

* JavaScript values are `JSValue`; a thrown exception is an `Except JSError` error.
* Finite numbers are rationals (`JSNum.fin`): the store only compares numbers, and the
  layout is stated in exact arithmetic over an ordered field.
* What a handler reads from the browser (the form fields, the result of `JSON.parse`, the
  fresh UUID, the pointer position) is an argument of the handler; what it writes to the
  browser (the table body, alerts, the form reset) is recorded in the `State`.
* Host functions whose result is not computed here (`Number` to string, `Math.cos`,
  `Math.sin`, `Math.PI`) are parameters.
* The store handlers work on arbitrary values (`items` is whatever load and import leave
  there); `draw` is embedded on records of the documented shape (`Item`), with string ids
  and categories and numbers in `α`.
-/

set_option autoImplicit false

namespace Mapper

/-! ## JavaScript values -/

/-- A JavaScript number: `NaN`, the two infinities, or a finite value. -/
inductive JSNum where
  | nan
  | negInf
  | fin (q : ℚ)
  | posInf
  deriving DecidableEq

/-- A JavaScript value as the program meets it: primitives, arrays and plain objects
(an object is its list of own properties, keys unique, as `JSON.parse` and object
literals build them). -/
inductive JSValue where
  | undefined
  | null
  | bool (b : Bool)
  | num (n : JSNum)
  | str (s : String)
  | arr (elems : List JSValue)
  | obj (props : List (String × JSValue))

/-- The exceptions the program can meet. -/
inductive JSError where
  | typeError
  | syntaxError
  deriving DecidableEq

/-- `Math.min(a, b)`. -/
def JSNum.min : JSNum → JSNum → JSNum
  | .nan, _ => .nan
  | _, .nan => .nan
  | .negInf, _ => .negInf
  | _, .negInf => .negInf
  | .posInf, b => b
  | a, .posInf => a
  | .fin a, .fin b => .fin (if a ≤ b then a else b)

/-- `Math.max(a, b)`. -/
def JSNum.max : JSNum → JSNum → JSNum
  | .nan, _ => .nan
  | _, .nan => .nan
  | .posInf, _ => .posInf
  | _, .posInf => .posInf
  | .negInf, b => b
  | a, .negInf => a
  | .fin a, .fin b => .fin (if a ≤ b then b else a)

/-- `function clamp(v, min, max){ return Math.max(min, Math.min(max, v)); }` -/
def clamp (v lo hi : JSNum) : JSNum :=
  JSNum.max lo (JSNum.min hi v)

/-- ToBoolean. -/
def truthy : JSValue → Bool
  | .undefined => false
  | .null => false
  | .bool b => b
  | .num .nan => false
  | .num (.fin q) => decide (q ≠ 0)
  | .num _ => true
  | .str s => decide (s ≠ "")
  | .arr _ => true
  | .obj _ => true

/-- `Array.isArray(v)`. -/
def isArray : JSValue → Bool
  | .arr _ => true
  | _ => false

/-- Property read `v.k` for the property names the program reads (`id`, `name`, `category`,
`importance`, `proximity`, `strength`, `notes`), none of which is inherited: a `TypeError`
on `undefined` and `null`, the own property of an object, `undefined` otherwise. -/
def getProp (v : JSValue) (k : String) : Except JSError JSValue :=
  match v with
  | .undefined => .error .typeError
  | .null => .error .typeError
  | .obj ps => .ok ((ps.lookup k).getD .undefined)
  | _ => .ok .undefined

/-- `v === s` for a string `s`. -/
def strictEqStr (v : JSValue) (s : String) : Bool :=
  match v with
  | .str t => decide (t = s)
  | _ => false

mutual
/-- ToString of a value, as a template literal applies it: `numberToString` renders numbers;
an array is its elements joined by commas; a plain object is `[object Object]`, and a
`TypeError` when an own `toString` property (never callable here) hides the inherited one. -/
def toStringJS (numberToString : JSNum → String) : JSValue → Except JSError String
  | .undefined => .ok "undefined"
  | .null => .ok "null"
  | .bool b => .ok (if b then "true" else "false")
  | .num n => .ok (numberToString n)
  | .str s => .ok s
  | .arr xs => joinJS numberToString xs
  | .obj ps => if ps.any (fun p => p.1 == "toString") then .error .typeError
      else .ok "[object Object]"
/-- `Array.prototype.join` with the separator `,`. -/
def joinJS (numberToString : JSNum → String) : List JSValue → Except JSError String
  | [] => .ok ""
  | [x] => elemJS numberToString x
  | x :: y :: r =>
    match elemJS numberToString x with
    | .error e => .error e
    | .ok a =>
      match joinJS numberToString (y :: r) with
      | .error e => .error e
      | .ok b => .ok (a ++ "," ++ b)
/-- One element inside `join`: `undefined` and `null` are the empty string. -/
def elemJS (numberToString : JSNum → String) : JSValue → Except JSError String
  | .undefined => .ok ""
  | .null => .ok ""
  | .bool b => .ok (if b then "true" else "false")
  | .num n => .ok (numberToString n)
  | .str s => .ok s
  | .arr xs => joinJS numberToString xs
  | .obj ps => if ps.any (fun p => p.1 == "toString") then .error .typeError
      else .ok "[object Object]"
end

/-- WhiteSpace and LineTerminator code points, the ones `String.prototype.trim` strips. -/
def isJSWhiteSpace (c : Char) : Bool :=
  c.toNat ∈ [0x9, 0xA, 0xB, 0xC, 0xD, 0x20, 0xA0, 0x1680, 0x2028, 0x2029, 0x202F, 0x205F,
    0x3000, 0xFEFF] || (0x2000 ≤ c.toNat && c.toNat ≤ 0x200A)

/-- `s.trim()`. -/
def jsTrim (s : String) : String :=
  ⟨((s.data.dropWhile isJSWhiteSpace).reverse.dropWhile isJSWhiteSpace).reverse⟩

/-! ## Markup -/

/-- The replacer of `escapeHtml`: the entity of `& < > " '`, the character itself otherwise. -/
def escapeChar (c : Char) : List Char :=
  if c = '&' then "&amp;".data
  else if c = '<' then "&lt;".data
  else if c = '>' then "&gt;".data
  else if c = Char.ofNat 34 then "&quot;".data
  else if c = Char.ofNat 39 then "&#39;".data
  else [c]

/-- `s.replace(/[&<>"']/g, m => entity[m])` on a string. -/
def escapeString (s : String) : String :=
  ⟨s.data.flatMap escapeChar⟩

/-- `function escapeHtml(s){ return s.replace(...) }`: only a string has `replace`. -/
def escapeHtml (s : JSValue) : Except JSError String :=
  match s with
  | .str t => .ok (escapeString t)
  | _ => .error .typeError

/-- The template literal of `renderTable` for one record (`tr.innerHTML`). -/
def rowHtml (numberToString : JSNum → String) (rec : JSValue) : Except JSError String := do
  let name ← escapeHtml (← getProp rec "name")
  let category ← escapeHtml (← getProp rec "category")
  let importance ← toStringJS numberToString (← getProp rec "importance")
  let proximity ← toStringJS numberToString (← getProp rec "proximity")
  let strength ← toStringJS numberToString (← getProp rec "strength")
  let id1 ← toStringJS numberToString (← getProp rec "id")
  let id2 ← toStringJS numberToString (← getProp rec "id")
  pure ("\n      <td>" ++ name ++ "</td>\n      <td>" ++ category ++ "</td>\n      <td>"
    ++ importance ++ "</td>\n      <td>" ++ proximity ++ "</td>\n      <td>" ++ strength
    ++ "</td>\n      <td>\n        <button class=\"action\" data-act=\"edit\" data-id=\""
    ++ id1 ++ "\">Edit</button>\n        <button class=\"action\" data-act=\"del\" data-id=\""
    ++ id2 ++ "\">Delete</button>\n      </td>")

/-- The template literal of the tooltip in `draw` (`tooltip.html(...)`) for one datum. -/
def tooltipHtml (numberToString : JSNum → String) (d : JSValue) : Except JSError String := do
  let name ← escapeHtml (← getProp d "name")
  let category ← escapeHtml (← getProp d "category")
  let importance ← toStringJS numberToString (← getProp d "importance")
  let proximity ← toStringJS numberToString (← getProp d "proximity")
  let strength ← toStringJS numberToString (← getProp d "strength")
  let notes ← (do
    if truthy (← getProp d "notes") then
      let n ← escapeHtml (← getProp d "notes")
      pure ("Notes: " ++ n)
    else pure "")
  pure ("\n          <strong>" ++ name ++ "</strong><br/>\n          Category: " ++ category
    ++ "<br/>\n          Importance: " ++ importance ++ "<br/>\n          Proximity: "
    ++ proximity ++ "<br/>\n          Strength: " ++ strength ++ "<br/>\n          " ++ notes
    ++ "\n        ")

/-- The values a `for (const rec of items)` loop visits: the elements of an array, the
code points of a string; any other value is not iterable. -/
def iterate : JSValue → Except JSError (List JSValue)
  | .arr xs => .ok xs
  | .str s => .ok (s.data.map fun c => .str (String.singleton c))
  | _ => .error .typeError

/-- The body of the loop of `renderTable`: the rows appended before the first failure, and
the failure. -/
def renderRows (numberToString : JSNum → String) :
    List JSValue → List String × Option JSError
  | [] => ([], none)
  | rec :: rest =>
    match rowHtml numberToString rec with
    | .error e => ([], some e)
    | .ok row =>
      let r := renderRows numberToString rest
      (row :: r.1, r.2)

/-! ## State and handlers -/

/-- What a handler does to the page besides the table. -/
inductive Effect where
  | alert (message : String)
  | formReset
  | formFilled (rec : JSValue)

/-- The module state (`items`, `editingId`) and the page: the rows of the table body and
the effects so far. -/
structure State where
  items : JSValue
  editingId : Option String
  table : List String
  effects : List Effect

/-- A handler run: the state it leaves and the exception it ended with, if any. -/
structure Outcome where
  state : State
  error : Option JSError

/-- The state when the script has loaded: `let items = []; let editingId = null;` and the
initial `renderTable()`. -/
def init : State :=
  { items := .arr [], editingId := none, table := [], effects := [] }

/-- `alert(message)`. -/
def alert (st : State) (message : String) : State :=
  { st with effects := st.effects ++ [.alert message] }

/-- `function resetForm()`. -/
def resetForm (st : State) : State :=
  { st with editingId := none, effects := st.effects ++ [.formReset] }

/-- `function renderTable()`. -/
def renderTable (numberToString : JSNum → String) (st : State) : Outcome :=
  match iterate st.items with
  | .error e => { state := { st with table := [] }, error := some e }
  | .ok xs =>
    let r := renderRows numberToString xs
    { state := { st with table := r.1 }, error := r.2 }

/-- The fields of the form as `upsertFromForm` reads them: the text of `#name`, `#category`
and `#notes`, and the numbers `+$("#importance").value`, `+$("#proximity").value`,
`+$("#strength").value`. -/
structure FormInput where
  name : String
  category : String
  importance : JSNum
  proximity : JSNum
  strength : JSNum
  notes : String

/-- The object literal `rec` of `upsertFromForm`. -/
def mkRec (id : String) (f : FormInput) : JSValue :=
  .obj [("id", .str id),
        ("name", .str (jsTrim f.name)),
        ("category", .str (if jsTrim f.category = "" then "Uncategorized" else jsTrim f.category)),
        ("importance", .num (clamp f.importance (.fin 0) (.fin 100))),
        ("proximity", .num (clamp f.proximity (.fin 0) (.fin 100))),
        ("strength", .num (clamp f.strength (.fin 0) (.fin 10))),
        ("notes", .str (jsTrim f.notes))]

/-- `xs.findIndex(x => x.id === id)`; `none` stands for `-1`. -/
def findIndex (id : String) : List JSValue → Except JSError (Option Nat)
  | [] => .ok none
  | x :: rest =>
    match getProp x "id" with
    | .error e => .error e
    | .ok v =>
      if strictEqStr v id then .ok (some 0)
      else
        match findIndex id rest with
        | .error e => .error e
        | .ok r => .ok (r.map (· + 1))

/-- `xs.filter(x => x.id !== id)`. -/
def filterOut (id : String) : List JSValue → Except JSError (List JSValue)
  | [] => .ok []
  | x :: rest =>
    match getProp x "id" with
    | .error e => .error e
    | .ok v =>
      match filterOut id rest with
      | .error e => .error e
      | .ok r => .ok (if strictEqStr v id then r else x :: r)

/-- `function upsertFromForm(e)`; `uuid` is what `crypto.randomUUID()` returns when called. -/
def upsertFromForm (numberToString : JSNum → String) (st : State) (f : FormInput)
    (uuid : String) : Outcome :=
  let id := st.editingId.getD uuid
  let record := mkRec id f
  if jsTrim f.name = "" then { state := st, error := none }
  else
    match st.items with
    | .arr xs =>
      match findIndex id xs with
      | .error e => { state := st, error := some e }
      | .ok idx =>
        let items : JSValue :=
          match idx with
          | some i => .arr (xs.set i record)
          | none => .arr (xs ++ [record])
        let r := renderTable numberToString { st with items := items }
        match r.error with
        | some e => { state := r.state, error := some e }
        | none => { state := resetForm r.state, error := none }
    | _ => { state := st, error := some .typeError }

/-- The button a click on the table resolves to (`e.target.closest("button[data-act]")`):
its `data-act` and `data-id`. -/
structure Button where
  act : String
  id : String

/-- `function onRowAction(e)`; `btn` is `none` when the click is not on a button. -/
def onRowAction (numberToString : JSNum → String) (st : State) (btn : Option Button) :
    Outcome :=
  match btn with
  | none => { state := st, error := none }
  | some b =>
    match st.items with
    | .arr xs =>
      match findIndex b.id xs with
      | .error e => { state := st, error := some e }
      | .ok none => { state := st, error := none }
      | .ok (some i) =>
        if b.act = "edit" then
          { state := { st with editingId := some b.id,
                               effects := st.effects ++ [.formFilled (xs.getD i .undefined)] },
            error := none }
        else if b.act = "del" then
          match filterOut b.id xs with
          | .error e => { state := st, error := some e }
          | .ok ys => renderTable numberToString { st with items := .arr ys }
        else { state := st, error := none }
    | _ => { state := st, error := some .typeError }

/-- The click handler of `#load`; `raw` is `localStorage.getItem("egomap_items")` and
`parsed` the outcome of `JSON.parse(raw)`. -/
def loadClick (numberToString : JSNum → String) (st : State) (raw : Option String)
    (parsed : Except JSError JSValue) : Outcome :=
  match raw with
  | none => { state := alert st "Nothing saved yet.", error := none }
  | some text =>
    if text = "" then { state := alert st "Nothing saved yet.", error := none }
    else
      let items : JSValue :=
        match parsed with
        | .ok v => if truthy v then v else .arr []
        | .error _ => .arr []
      renderTable numberToString { st with items := items }

/-- The `onload` callback of the `#importJSON` change handler; `parsed` is the outcome of
`JSON.parse(reader.result)`. -/
def importJSON (numberToString : JSNum → String) (st : State)
    (parsed : Except JSError JSValue) : Outcome :=
  match parsed with
  | .error _ => { state := alert st "Couldn't parse JSON.", error := none }
  | .ok incoming =>
    if isArray incoming then
      let r := renderTable numberToString { st with items := incoming }
      match r.error with
      | some _ => { state := alert r.state "Couldn't parse JSON.", error := none }
      | none => { state := r.state, error := none }
    else { state := alert st "Invalid JSON format.", error := none }

/-- The operations on the record store, each with what it reads from the browser. -/
inductive StoreOp where
  | submit (f : FormInput) (uuid : String)
  | rowAction (btn : Option Button)
  | clearForm
  | load (raw : Option String) (parsed : Except JSError JSValue)
  | importFile (parsed : Except JSError JSValue)

/-- One event: the handler the operation triggers. -/
def step (numberToString : JSNum → String) (st : State) : StoreOp → Outcome
  | .submit f uuid => upsertFromForm numberToString st f uuid
  | .rowAction btn => onRowAction numberToString st btn
  | .clearForm => { state := resetForm st, error := none }
  | .load raw parsed => loadClick numberToString st raw parsed
  | .importFile parsed => importJSON numberToString st parsed

/-- A sequence of events; an exception ends its handler only, the page goes on from the
state the handler left. -/
def run (numberToString : JSNum → String) : State → List StoreOp → State
  | st, [] => st
  | st, op :: ops => run numberToString (step numberToString st op).state ops

/-! ## Layout (`draw`)

The layout is stated over an ordered field `α` in exact arithmetic; `0.42`, `0.2` and `0.3`
are the fractions `42/100`, `2/10` and `3/10`. The d3 functions are embedded from d3-scale
(`linear.js`, `continuous.js`, `band.js`, `ordinal.js`), d3-interpolate (`number.js`) and
d3-array (`group.js`). -/

section Layout

variable {α : Type} [LinearOrderedField α]

/-- `normalize(a, b)` of d3-scale `continuous.js`:
`(b -= (a = +a)) ? x => (x - a) / b : constant(0.5)`. -/
def normalize (a b x : α) : α :=
  if b - a = 0 then 1 / 2 else (x - a) / (b - a)

/-- `interpolateNumber(a, b)` of d3-interpolate: `t => a * (1 - t) + b * t`. -/
def interpolateNumber (a b t : α) : α :=
  a * (1 - t) + b * t

/-- `d3.scaleLinear().domain([d0, d1]).range([r0, r1])` applied to `x` (`bimap` of
d3-scale `continuous.js`, no clamping). -/
def scaleLinear (d0 d1 r0 r1 x : α) : α :=
  if d1 < d0 then interpolateNumber r1 r0 (normalize d1 d0 x)
  else interpolateNumber r0 r1 (normalize d0 d1 x)

/-- The points of `d3.scalePoint().range([r0, r1])` for a domain of `n` values: `rescale`
of d3-scale `band.js` with `paddingInner = 1`, `paddingOuter = 0`, `align = 0.5` and no
rounding. -/
def pointValues (n : Nat) (r0 r1 : α) : List α :=
  let reverse : Bool := decide (r1 < r0)
  let start : α := if reverse then r1 else r0
  let stop : α := if reverse then r0 else r1
  let step : α := (stop - start) / max 1 ((n : α) - 1 + 0 * 2)
  let start2 : α := start + (stop - start - step * ((n : α) - 1)) * (1 / 2)
  let values : List α := (List.range n).map fun i : Nat => start2 + step * (i : α)
  if reverse then values.reverse else values

/-- The domain an ordinal scale keeps: each value once, in first-seen order. -/
def ordinalDomain {κ : Type} [DecidableEq κ] (keys : List κ) : List κ :=
  keys.foldl (fun dom k => if k ∈ dom then dom else dom ++ [k]) []

/-- `d3.scalePoint().domain(domain).range([r0, r1])` applied to `x`: the point at the index
of `x` in the domain, `none` (for `undefined`) when `x` is not in the domain. -/
def scalePoint {κ : Type} [DecidableEq κ] (domain : List κ) (r0 r1 : α) (x : κ) : Option α :=
  (pointValues (ordinalDomain domain).length r0 r1)[(ordinalDomain domain).indexOf x]?

/-- A record as the form writes it (`{id, name, category, importance, proximity, strength,
notes}`), its numbers in `α`. -/
structure Item (α : Type) where
  id : String
  name : String
  category : String
  importance : α
  proximity : α
  strength : α
  notes : String

/-- One step of `d3.groups`: the record joins the group of its key, or opens a new last
group. -/
def groupInsert {ρ κ : Type} [DecidableEq κ] (d : ρ) (k : κ) :
    List (κ × List ρ) → List (κ × List ρ)
  | [] => [(k, [d])]
  | g :: gs => if g.1 = k then (g.1, g.2 ++ [d]) :: gs else g :: groupInsert d k gs

/-- `d3.groups(items, key)`: the groups in first-seen order of their key, each with its
records in their order. -/
def groups {ρ κ : Type} [DecidableEq κ] (key : ρ → κ) (items : List ρ) : List (κ × List ρ) :=
  items.foldl (fun gs d => groupInsert d (key d) gs) []

/-- A pair of coordinates `{x, y}`. -/
structure Point (α : Type) where
  x : α
  y : α

/-- An element of `positions`: `{...d, angle, r}`. -/
structure Position (α : Type) where
  d : Item α
  angle : α
  r : α

/-- An element of `links`: `{source, target, strength, id}`. -/
structure Link (α : Type) where
  source : Point α
  target : Point α
  strength : α
  id : String

/-- A `line.link` element: its `x1`, `y1`, `x2`, `y2` and `stroke-width` attributes. -/
structure Line (α : Type) where
  x1 : α
  y1 : α
  x2 : α
  y2 : α
  strokeWidth : α

/-- A `g.node` element: its `translate(x,y)` and the radius of its circle. -/
structure Node (α : Type) where
  x : α
  y : α
  r : α

/-- What `draw` builds. -/
structure Drawing (α : Type) where
  cx : α
  cy : α
  maxR : α
  rings : List α
  positions : List (Position α)
  links : List (Link α)
  lines : List (Line α)
  nodes : List (Node α)

/-- `const size = d3.scaleLinear().domain([0,100]).range([8, 48])`. -/
def size (importance : α) : α :=
  scaleLinear 0 100 8 48 importance

/-- `const radius = d3.scaleLinear().domain([0,100]).range([maxR * 0.2, maxR])`. -/
def radius (maxR proximity : α) : α :=
  scaleLinear 0 100 (maxR * (2 / 10)) maxR proximity

/-- `const linkWidth = d3.scaleLinear().domain([0,10]).range([1, 10])`. -/
def linkWidth (strength : α) : α :=
  scaleLinear 0 10 1 10 strength

/-- `const groupAngles = d3.scalePoint().domain(groups.map(g => g[0])).range([0, 2 * Math.PI])`
applied to a category. -/
def groupAngles (pi : α) (gs : List (String × List (Item α))) (cat : String) : Option α :=
  scalePoint (gs.map Prod.fst) 0 (2 * pi) cat

/-- `const offsets = d3.scalePoint().domain(d3.range(arr.length)).range([-0.3, 0.3])` for a
group of `n` records, applied to `i`. -/
def offsets (n : Nat) (i : Nat) : Option α :=
  scalePoint (List.range n) (-(3 / 10)) (3 / 10) i

/-- The body of the loop over `groups` for one group: `base = groupAngles(cat) ?? 0` and one
position per member, `angle: base + (offsets(i) || 0)`, `r: radius(d.proximity)`. -/
def groupPositions (pi maxR : α) (gs : List (String × List (Item α)))
    (g : String × List (Item α)) : List (Position α) :=
  let base : α := (groupAngles pi gs g.1).getD 0
  List.zipWith
    (fun i d => { d := d, angle := base + (offsets g.2.length i).getD 0,
                  r := radius maxR d.proximity })
    (List.range g.2.length) g.2

/-- The array `positions` of `draw`. -/
def positions (pi maxR : α) (items : List (Item α)) : List (Position α) :=
  (groups (fun d => d.category) items).flatMap
    (groupPositions pi maxR (groups (fun d => d.category) items))

/-- `function draw()`; `width` and `height` are the bounding rectangle of the svg, `cos`,
`sin` and `pi` are `Math.cos`, `Math.sin` and `Math.PI`. -/
def draw (cos sin : α → α) (pi : α) (items : List (Item α)) (width height : α) : Drawing α :=
  let cx := width / 2
  let cy := height / 2
  let maxR := min width height * (42 / 100)
  let ringVals : List α := [20, 40, 60, 80, 100]
  let pos := positions pi maxR items
  let links : List (Link α) := pos.map fun d =>
    { source := { x := cx, y := cy },
      target := { x := cx + cos d.angle * d.r, y := cy + sin d.angle * d.r },
      strength := d.d.strength,
      id := d.d.id }
  { cx := cx, cy := cy, maxR := maxR,
    rings := ringVals.map (radius maxR),
    positions := pos,
    links := links,
    lines := links.map fun l =>
      { x1 := l.source.x, y1 := l.source.y, x2 := l.target.x, y2 := l.target.y,
        strokeWidth := linkWidth l.strength },
    nodes := pos.map fun d =>
      { x := cx + cos d.angle * d.r, y := cy + sin d.angle * d.r, r := size d.d.importance } }

/-- `const L = links.find(l => l.id === d.id); L.target.x = x; L.target.y = y;`: the first
link with the id gets the new target; `none` when no link has the id (`L` is `undefined`). -/
def moveTarget (id : String) (p : Point α) : List (Link α) → Option (List (Link α))
  | [] => none
  | l :: ls =>
    if l.id = id then some ({ l with target := p } :: ls)
    else (moveTarget id p ls).map (l :: ·)

/-- The `drag` handler of the node with index `k` (the node of `positions[k]`) for a move
event at `(x, y)`: the node is translated to the pointer, the target of the first link
with its id is set, and every line whose link has its id gets `x2`, `y2`. An index that is
no node is no event. -/
def onDrag (D : Drawing α) (k : Nat) (x y : α) : Drawing α × Option JSError :=
  match D.positions[k]? with
  | none => (D, none)
  | some d =>
    let nodes := D.nodes.modify (fun n => { n with x := x, y := y }) k
    match moveTarget d.d.id { x := x, y := y } D.links with
    | none => ({ D with nodes := nodes }, some .typeError)
    | some links =>
      ({ D with
          nodes := nodes,
          links := links,
          lines := List.zipWith
            (fun l line => if l.id = d.d.id then { line with x2 := x, y2 := y } else line)
            D.links D.lines },
        none)

/-- A record of category `Team` at proximity 0. -/
def annItem : Item α :=
  { id := "a", name := "Ann", category := "Team", importance := 60, proximity := 0,
    strength := 6, notes := "" }

/-- A record of category `Client` at proximity 100. -/
def bobItem : Item α :=
  { id := "b", name := "Bob", category := "Client", importance := 80, proximity := 100,
    strength := 3, notes := "" }

/-- A second record of category `Team`. -/
def cyItem : Item α :=
  { id := "c", name := "Cy", category := "Team", importance := 20, proximity := 40,
    strength := 9, notes := "" }

/-- Three records, the first and the last of the same category. -/
def threeItems : List (Item α) :=
  [annItem, bobItem, cyItem]

end Layout

/-- The `id` of a record as `x.id` reads it where the read does not throw. -/
def recId : JSValue → JSValue
  | .obj ps => (ps.lookup "id").getD .undefined
  | _ => .undefined

/-- The predicate `x => x.id === id` on a value whose `id` can be read. -/
def hasId (id : String) (x : JSValue) : Bool :=
  strictEqStr (recId x) id

/-- The store holds a list in which no two records have the same id. -/
def IdsDistinct (items : JSValue) : Prop :=
  ∃ rs, items = .arr rs ∧ (rs.map recId).Nodup

/-- What the operation installs wholesale, if it installs anything, has pairwise distinct
ids: the value a load installs (any truthy parse result of a non-empty slot), the array
that an import installs. -/
def StoreOp.InstallsDistinct : StoreOp → Prop
  | .load raw parsed =>
    ∀ text v, raw = some text → text ≠ "" → parsed = .ok v → truthy v = true → IdsDistinct v
  | .importFile parsed => ∀ v, parsed = .ok v → isArray v = true → IdsDistinct v
  | _ => True

/-! ## Inputs of the examples -/

/-- A form holding only blanks and a tab in `#name`, submitted while record `a` is being
edited. -/
def blankForm : FormInput :=
  { name := " \t ", category := "Team", importance := .fin 150, proximity := .fin 40,
    strength := .fin (-3), notes := "" }

/-- A state with one record, being edited. -/
def editingState : State :=
  { items := .arr [.obj [("id", .str "a"), ("name", .str "Ann")]], editingId := some "a",
    table := [], effects := [] }

/-- A record as an import can install it: the numeric fields and the id hold markup. -/
def markupRecord : JSValue :=
  .obj [("id", .str "\"><img src=x onerror=alert(1)>"),
        ("name", .str "<b>Ann</b>"),
        ("category", .str "R&D"),
        ("importance", .str "<script>alert(2)</script>"),
        ("proximity", .num (.fin 40)),
        ("strength", .num (.fin 6)),
        ("notes", .str "")]

/-- A submission with importance 150 and strength -3. -/
def outOfRangeForm : FormInput :=
  { name := " Bea ", category := "", importance := .fin 150, proximity := .fin 40,
    strength := .fin (-3), notes := "" }

/-- An array of two records that share the id `a`, as an imported file can hold it. -/
def duplicateIds : JSValue :=
  .arr [.obj [("id", .str "a"), ("name", .str "Ann"), ("category", .str "Team")],
        .obj [("id", .str "a"), ("name", .str "Bob"), ("category", .str "Team")]]

/-- A session: a record is created, opened for editing, saved again under the same id,
a second record is created, the first is deleted, and a one-record file is imported. -/
def sampleOps : List StoreOp :=
  [.submit outOfRangeForm "u1", .rowAction (some { act := "edit", id := "u1" }),
   .submit blankForm "u2", .submit outOfRangeForm "u2", .submit outOfRangeForm "u3",
   .rowAction (some { act := "del", id := "u1" }),
   .importFile (.ok (.arr [.obj [("id", .str "z")]]))]

/-! ## Lemmas on the helpers -/

theorem jsTrim_eq_empty_of_blank (s : String)
    (h : ∀ c ∈ s.data, isJSWhiteSpace c = true) : jsTrim s = "" := by
  have h1 : s.data.dropWhile isJSWhiteSpace = [] := by
    rw [List.dropWhile_eq_nil_iff]; exact h
  simp [jsTrim, h1]

theorem blank_of_jsTrim_eq_empty (s : String) (h : jsTrim s = "") :
    ∀ c ∈ s.data, isJSWhiteSpace c = true := by
  have h0 : ((s.data.dropWhile isJSWhiteSpace).reverse.dropWhile isJSWhiteSpace).reverse = [] := by
    have := congrArg String.data h
    simpa [jsTrim] using this
  rw [List.reverse_eq_nil_iff, List.dropWhile_eq_nil_iff] at h0
  by_contra hne
  have h1 : s.data.dropWhile isJSWhiteSpace ≠ [] := by
    rw [Ne, List.dropWhile_eq_nil_iff]; exact hne
  have h2 := List.head_dropWhile_not isJSWhiteSpace s.data h1
  have h3 := h0 _ (List.mem_reverse.mpr (List.head_mem h1))
  simp [h3] at h2

theorem getProp_id_eq {x v : JSValue} (h : getProp x "id" = .ok v) : v = recId x := by
  cases x <;> simp [getProp, recId] at h ⊢ <;> exact h.symm

theorem hasId_iff {id : String} {x : JSValue} : hasId id x = true ↔ recId x = .str id := by
  unfold hasId strictEqStr
  cases recId x <;> simp

/-- Where `findIndex` finds the id: the first record that has it. -/
theorem findIndex_some {id : String} : ∀ {xs : List JSValue} {i : Nat},
    findIndex id xs = .ok (some i) →
    ∃ l1 a l2, xs = l1 ++ a :: l2 ∧ l1.length = i ∧ hasId id a = true ∧
      ∀ x ∈ l1, hasId id x = false
  | [], i, h => by simp [findIndex] at h
  | x :: rest, i, h => by
    unfold findIndex at h
    cases hx : getProp x "id" with
    | error e => simp [hx] at h
    | ok v =>
      have hv := getProp_id_eq hx
      subst hv
      simp only [hx] at h
      by_cases hs : strictEqStr (recId x) id = true
      · simp [hs] at h
        exact ⟨[], x, rest, rfl, by simpa using h, hs, by simp⟩
      · simp only [hs] at h
        cases hr : findIndex id rest with
        | error e => simp [hr] at h
        | ok r =>
          cases r with
          | none => simp [hr] at h
          | some j =>
            simp [hr] at h
            obtain ⟨l1, a, l2, hxs, hlen, ha, hl1⟩ := findIndex_some hr
            refine ⟨x :: l1, a, l2, by simp [hxs], by simp [hlen, h], ha, ?_⟩
            intro y hy
            rcases List.mem_cons.mp hy with rfl | hy
            · simpa [hasId] using hs
            · exact hl1 y hy

/-- When `findIndex` answers `-1` no record has the id. -/
theorem findIndex_none {id : String} : ∀ {xs : List JSValue},
    findIndex id xs = .ok none → ∀ x ∈ xs, hasId id x = false
  | [], _ => by simp
  | x :: rest, h => by
    unfold findIndex at h
    cases hx : getProp x "id" with
    | error e => simp [hx] at h
    | ok v =>
      have hv := getProp_id_eq hx
      subst hv
      simp only [hx] at h
      by_cases hs : strictEqStr (recId x) id = true
      · simp [hs] at h
      · simp only [hs] at h
        cases hr : findIndex id rest with
        | error e => simp [hr] at h
        | ok r =>
          cases r with
          | some j => simp [hr] at h
          | none =>
            intro y hy
            rcases List.mem_cons.mp hy with rfl | hy
            · simpa [hasId] using hs
            · exact findIndex_none hr y hy

theorem mkRec_hasId (id : String) (f : FormInput) : hasId id (mkRec id f) = true := by
  simp [hasId, mkRec, recId, List.lookup, strictEqStr]

theorem set_length_append {α : Type} (l1 : List α) (a b : α) (l2 : List α) :
    (l1 ++ a :: l2).set l1.length b = l1 ++ b :: l2 := by
  induction l1 with
  | nil => rfl
  | cons x l ih => simp [List.set, ih]

theorem renderTable_items (numberToString : JSNum → String) (st : State) :
    (renderTable numberToString st).state.items = st.items := by
  unfold renderTable
  cases iterate st.items <;> rfl

/-- The record list `upsertFromForm` leaves when the name is not blank and the id is found
at index `i`. -/
theorem upsertFromForm_items_found (numberToString : JSNum → String) (st : State)
    (rs : List JSValue) (f : FormInput) (uuid : String) (i : Nat)
    (hitems : st.items = .arr rs) (hname : jsTrim f.name ≠ "")
    (hr : findIndex (st.editingId.getD uuid) rs = .ok (some i)) :
    (upsertFromForm numberToString st f uuid).state.items =
      .arr (rs.set i (mkRec (st.editingId.getD uuid) f)) := by
  unfold upsertFromForm
  simp only [hname, if_false, hitems, hr]
  split <;> simp [resetForm, renderTable_items]

/-- The record list `upsertFromForm` leaves when the name is not blank and the id is not
found. -/
theorem upsertFromForm_items_absent (numberToString : JSNum → String) (st : State)
    (rs : List JSValue) (f : FormInput) (uuid : String)
    (hitems : st.items = .arr rs) (hname : jsTrim f.name ≠ "")
    (hr : findIndex (st.editingId.getD uuid) rs = .ok none) :
    (upsertFromForm numberToString st f uuid).state.items =
      .arr (rs ++ [mkRec (st.editingId.getD uuid) f]) := by
  unfold upsertFromForm
  simp only [hname, if_false, hitems, hr]
  split <;> simp [resetForm, renderTable_items]

/-! ## Rejected submissions -/

/-- C9: a submitted form whose name is empty or only whitespace leaves the whole state as it
was (the record list, the edit target, the table, and no form reset or other effect), and
the handler ends without an exception. -/
theorem upsertFromForm_blank_name_noop (numberToString : JSNum → String) (st : State)
    (f : FormInput) (uuid : String)
    (hblank : ∀ c ∈ f.name.data, isJSWhiteSpace c = true) :
    (upsertFromForm numberToString st f uuid).state = st ∧
      (upsertFromForm numberToString st f uuid).error = none := by
  have h := jsTrim_eq_empty_of_blank f.name hblank
  simp [upsertFromForm, h]

theorem upsertFromForm_blank_name_noop_witness :
    (∀ c ∈ blankForm.name.data, isJSWhiteSpace c = true) ∧
    (upsertFromForm (fun _ => "") editingState blankForm "u1").state = editingState ∧
      (upsertFromForm (fun _ => "") editingState blankForm "u1").error = none :=
  ⟨by decide, upsertFromForm_blank_name_noop (fun _ => "") editingState blankForm "u1"
    (by decide)⟩

/-! ## Import -/

/-- C6: when the file text parses to an array the record list becomes that array; when it
does not parse, or parses to a value that is not an array, the record list is what it was
and one alert is raised. -/
theorem importJSON_replaces_or_keeps (numberToString : JSNum → String) (st : State)
    (parsed : Except JSError JSValue) :
    (∀ xs, parsed = .ok (.arr xs) →
      (importJSON numberToString st parsed).state.items = .arr xs) ∧
    ((∀ xs, parsed ≠ .ok (.arr xs)) →
      (importJSON numberToString st parsed).state.items = st.items ∧
      (importJSON numberToString st parsed).state.editingId = st.editingId ∧
      (importJSON numberToString st parsed).state.table = st.table ∧
      ∃ message, (importJSON numberToString st parsed).state.effects
        = st.effects ++ [Effect.alert message]) := by
  constructor
  · intro xs h
    subst h
    simp only [importJSON, isArray, if_true]
    cases hr : (renderTable numberToString { st with items := .arr xs }).error <;>
      simp [renderTable, iterate, alert]
  · intro h
    cases parsed with
    | error e => exact ⟨rfl, rfl, rfl, _, rfl⟩
    | ok v =>
      cases v with
      | arr xs => exact absurd rfl (h xs)
      | _ => exact ⟨rfl, rfl, rfl, _, rfl⟩

theorem importJSON_replaces_or_keeps_witness :
    (importJSON (fun _ => "") editingState
        (.ok (.arr [.obj [("id", .str "b"), ("name", .str "Bob"), ("category", .str "x")]]))).state.items
      = .arr [.obj [("id", .str "b"), ("name", .str "Bob"), ("category", .str "x")]] ∧
    (importJSON (fun _ => "") editingState (.ok (.obj [("id", .str "b")]))).state.items
      = editingState.items ∧
    (importJSON (fun _ => "") editingState (.error .syntaxError)).state.items
      = editingState.items :=
  ⟨(importJSON_replaces_or_keeps (fun _ => "") editingState _).1 _ rfl,
   ((importJSON_replaces_or_keeps (fun _ => "") editingState (.ok (.obj [("id", .str "b")]))).2
      (by intro xs h; cases h)).1,
   ((importJSON_replaces_or_keeps (fun _ => "") editingState (.error .syntaxError)).2
      (by intro xs h; cases h)).1⟩

/-! ## Load -/

/-- C10: with the saved text of an empty JSON object (which `JSON.parse` reads as an object
without properties) the load handler installs that object, not a sequence, as `items`, and
the `renderTable()` that follows ends with a `TypeError`; the import handler on the same
value keeps the old list. -/
theorem loadClick_installs_non_sequence (numberToString : JSNum → String) (st : State) :
    (loadClick numberToString st (some "\x7b\x7d") (.ok (.obj []))).state.items = .obj [] ∧
    (loadClick numberToString st (some "\x7b\x7d") (.ok (.obj []))).error
      = some JSError.typeError ∧
    (importJSON numberToString st (.ok (.obj []))).state.items = st.items :=
  ⟨rfl, rfl, rfl⟩

/-- The parts of the load handler that recover: an absent (or empty) slot leaves the whole
state but one added alert, and saved text that does not parse, or parses to a falsy value,
installs the empty list. -/
theorem loadClick_recovers (numberToString : JSNum → String) (st : State) :
    (loadClick numberToString st none (.error .syntaxError)).state
      = alert st "Nothing saved yet." ∧
    (∀ text, text ≠ "" → ∀ e,
      (loadClick numberToString st (some text) (.error e)).state.items = .arr [] ∧
      (loadClick numberToString st (some text) (.error e)).error = none) ∧
    (∀ text v, text ≠ "" → truthy v = false →
      (loadClick numberToString st (some text) (.ok v)).state.items = .arr []) := by
  refine ⟨rfl, ?_, ?_⟩
  · intro text ht e
    simp [loadClick, ht, renderTable, iterate, renderRows]
  · intro text v ht hv
    simp [loadClick, ht, hv, renderTable_items]

/-! ## Markup of a record -/

theorem escapeChar_no_special (c0 c : Char) (h : c ∈ escapeChar c0) :
    c ≠ '<' ∧ c ≠ '>' ∧ c ≠ Char.ofNat 34 ∧ c ≠ Char.ofNat 39 := by
  unfold escapeChar at h
  split_ifs at h with h1 h2 h3 h4 h5
  · simp at h
    rcases h with rfl | rfl | rfl | rfl | rfl <;> decide
  · simp at h
    rcases h with rfl | rfl | rfl | rfl <;> decide
  · simp at h
    rcases h with rfl | rfl | rfl | rfl <;> decide
  · simp at h
    rcases h with rfl | rfl | rfl | rfl | rfl | rfl <;> decide
  · simp at h
    rcases h with rfl | rfl | rfl | rfl | rfl <;> decide
  · simp at h
    subst h
    exact ⟨h2, h3, h4, h5⟩

/-- What `escapeHtml` returns for a string holds none of the characters `<`, `>`, the double
quote and the single quote. -/
theorem escapeHtml_no_special (t : String) :
    ∃ out, escapeHtml (.str t) = .ok out ∧
      ∀ c ∈ out.data, c ≠ '<' ∧ c ≠ '>' ∧ c ≠ Char.ofNat 34 ∧ c ≠ Char.ofNat 39 := by
  refine ⟨escapeString t, rfl, ?_⟩
  intro c hc
  simp only [escapeString, List.mem_flatMap] at hc
  obtain ⟨c0, -, hc0⟩ := hc
  exact escapeChar_no_special c0 c hc0


/-- C7: for the imported record `markupRecord` the row and the tooltip escape `name` and
`category`, and insert `importance` (and, in the row, `id`) as they are, so the markup
holds a `<script>` element and an attribute-closing quote taken from the record. -/
theorem rowHtml_inserts_unescaped_fields (numberToString : JSNum → String) :
    rowHtml numberToString markupRecord = .ok
      ("\n      <td>&lt;b&gt;Ann&lt;/b&gt;</td>\n      <td>R&amp;D</td>\n      <td>"
        ++ "<script>alert(2)</script>" ++ "</td>\n      <td>"
        ++ numberToString (.fin 40) ++ "</td>\n      <td>" ++ numberToString (.fin 6)
        ++ "</td>\n      <td>\n        <button class=\"action\" data-act=\"edit\" data-id=\""
        ++ "\"><img src=x onerror=alert(1)>"
        ++ "\">Edit</button>\n        <button class=\"action\" data-act=\"del\" data-id=\""
        ++ "\"><img src=x onerror=alert(1)>" ++ "\">Delete</button>\n      </td>") ∧
    tooltipHtml numberToString markupRecord = .ok
      ("\n          <strong>&lt;b&gt;Ann&lt;/b&gt;</strong><br/>\n          Category: R&amp;D"
        ++ "<br/>\n          Importance: " ++ "<script>alert(2)</script>"
        ++ "<br/>\n          Proximity: " ++ numberToString (.fin 40)
        ++ "<br/>\n          Strength: " ++ numberToString (.fin 6)
        ++ "<br/>\n          " ++ "" ++ "\n        ") :=
  ⟨rfl, rfl⟩

/-! ## Upsert -/

theorem filterOut_sublist {id : String} : ∀ {xs ys : List JSValue},
    filterOut id xs = .ok ys → ys.Sublist xs
  | [], ys, h => by
    simp [filterOut] at h
    subst h
    exact List.Sublist.refl _
  | x :: rest, ys, h => by
    unfold filterOut at h
    cases hx : getProp x "id" with
    | error e => simp [hx] at h
    | ok v =>
      simp only [hx] at h
      cases hr : filterOut id rest with
      | error e => simp [hr] at h
      | ok r =>
        simp only [hr, Except.ok.injEq] at h
        have ih := filterOut_sublist hr
        by_cases hs : strictEqStr v id = true
        · simp only [hs, if_true] at h
          subst h
          exact ih.cons _
        · simp only [hs] at h
          subst h
          exact ih.cons₂ _

theorem upsertFromForm_idsDistinct (numberToString : JSNum → String) (st : State)
    (f : FormInput) (uuid : String) (h : IdsDistinct st.items) :
    IdsDistinct (upsertFromForm numberToString st f uuid).state.items := by
  obtain ⟨rs, hitems, hnd⟩ := h
  by_cases hname : jsTrim f.name = ""
  · simp only [upsertFromForm, hname, if_true]
    exact ⟨rs, hitems, hnd⟩
  · cases hr : findIndex (st.editingId.getD uuid) rs with
    | error e =>
      simp only [upsertFromForm, hname, if_false, hitems, hr]
      exact ⟨rs, rfl, hnd⟩
    | ok r =>
      cases r with
      | some i =>
        obtain ⟨l1, a, l2, hxs, hlen, ha, -⟩ := findIndex_some hr
        subst hxs
        subst hlen
        refine ⟨_, upsertFromForm_items_found numberToString st _ f uuid _ hitems hname hr, ?_⟩
        rw [set_length_append]
        have e : recId (mkRec (st.editingId.getD uuid) f) = recId a := by
          rw [hasId_iff.mp ha, hasId_iff.mp (mkRec_hasId _ f)]
        simpa [e] using hnd
      | none =>
        have hall := findIndex_none hr
        refine ⟨_, upsertFromForm_items_absent numberToString st _ f uuid hitems hname hr, ?_⟩
        rw [List.map_append, List.map_singleton, hasId_iff.mp (mkRec_hasId _ f)]
        refine List.Nodup.append hnd (List.nodup_singleton _) ?_
        intro v hv hv2
        rw [List.mem_singleton] at hv2
        subst hv2
        obtain ⟨x, hx, hxv⟩ := List.mem_map.mp hv
        have := hall x hx
        rw [hasId_iff.mpr hxv] at this
        cases this

theorem onRowAction_idsDistinct (numberToString : JSNum → String) (st : State)
    (btn : Option Button) (h : IdsDistinct st.items) :
    IdsDistinct (onRowAction numberToString st btn).state.items := by
  obtain ⟨rs, hitems, hnd⟩ := h
  cases btn with
  | none => exact ⟨rs, hitems, hnd⟩
  | some b =>
    cases hr : findIndex b.id rs with
    | error e =>
      simp only [onRowAction, hitems, hr]
      exact ⟨rs, rfl, hnd⟩
    | ok r =>
      cases r with
      | none =>
        simp only [onRowAction, hitems, hr]
        exact ⟨rs, rfl, hnd⟩
      | some i =>
        by_cases hedit : b.act = "edit"
        · simp only [onRowAction, hitems, hr, hedit, if_true]
          exact ⟨rs, rfl, hnd⟩
        · by_cases hdel : b.act = "del"
          · have hne : ¬ ("del" = "edit") := by decide
            cases hf : filterOut b.id rs with
            | error e =>
              simp only [onRowAction, hitems, hr, hdel, hne, if_true, if_false, hf]
              exact ⟨rs, rfl, hnd⟩
            | ok ys =>
              simp only [onRowAction, hitems, hr, hdel, hne, if_true, if_false, hf,
                renderTable_items]
              exact ⟨ys, rfl, hnd.sublist ((filterOut_sublist hf).map recId)⟩
          · simp only [onRowAction, hitems, hr, hedit, hdel, if_false]
            exact ⟨rs, rfl, hnd⟩

theorem step_idsDistinct (numberToString : JSNum → String) (st : State) (op : StoreOp)
    (hop : op.InstallsDistinct) (h : IdsDistinct st.items) :
    IdsDistinct (step numberToString st op).state.items := by
  cases op with
  | submit f uuid => exact upsertFromForm_idsDistinct numberToString st f uuid h
  | rowAction btn => exact onRowAction_idsDistinct numberToString st btn h
  | clearForm => exact h
  | load raw parsed =>
    simp only [step, loadClick]
    cases raw with
    | none => exact h
    | some text =>
      by_cases ht : text = ""
      · simp only [ht, if_true]; exact h
      · simp only [ht, if_false, renderTable_items]
        cases parsed with
        | error e => exact ⟨[], rfl, List.nodup_nil⟩
        | ok v =>
          by_cases hv : truthy v = true
          · simp only [hv, if_true]; exact hop text v rfl ht rfl hv
          · simp only [hv]; exact ⟨[], rfl, List.nodup_nil⟩
  | importFile parsed =>
    simp only [step, importJSON]
    cases parsed with
    | error e => exact h
    | ok v =>
      by_cases hv : isArray v = true
      · simp only [hv, if_true]
        have := hop v rfl hv
        cases hr : (renderTable numberToString { st with items := v }).error <;>
          simpa [alert, renderTable_items] using this
      · simp only [hv]; exact h

/-- C8 (amended): starting from the empty list, after any sequence of store operations
(form submissions, row edits and deletes, form clears, loads, imports) in which every value
that a load or an import installs has pairwise distinct ids, the store is a list whose
records have pairwise distinct ids; no assumption on the generated ids is needed. -/
theorem run_idsDistinct (numberToString : JSNum → String) (ops : List StoreOp)
    (hops : ∀ op ∈ ops, op.InstallsDistinct) :
    IdsDistinct (run numberToString init ops).items := by
  suffices H : ∀ (ops : List StoreOp) (st : State), (∀ op ∈ ops, op.InstallsDistinct) →
      IdsDistinct st.items → IdsDistinct (run numberToString st ops).items from
    H ops init hops ⟨[], rfl, List.nodup_nil⟩
  intro ops
  induction ops with
  | nil => intro st _ h; exact h
  | cons op rest ih =>
    intro st hall h
    exact ih _ (fun o ho => hall o (List.mem_cons_of_mem _ ho))
      (step_idsDistinct numberToString st op (hall op (List.mem_cons_self _ _)) h)

/-- C8 (counterexample): from the empty list, one import of a file holding two records with
the id `a` leaves exactly these two records in the store, whatever renders the numbers: the
store is the list `duplicateIds`, whose two records have the same id. -/
theorem idsDistinct_counterexample :
    (∀ numberToString : JSNum → String,
      (run numberToString init [StoreOp.importFile (.ok duplicateIds)]).items = duplicateIds) ∧
    duplicateIds = .arr
      [.obj [("id", .str "a"), ("name", .str "Ann"), ("category", .str "Team")],
       .obj [("id", .str "a"), ("name", .str "Bob"), ("category", .str "Team")]] ∧
    recId (.obj [("id", .str "a"), ("name", .str "Ann"), ("category", .str "Team")])
      = recId (.obj [("id", .str "a"), ("name", .str "Bob"), ("category", .str "Team")]) ∧
    ¬ IdsDistinct duplicateIds := by
  refine ⟨fun _ => rfl, rfl, rfl, ?_⟩
  rintro ⟨rs, hrs, hnd⟩
  simp only [duplicateIds, JSValue.arr.injEq] at hrs
  subst hrs
  simp [recId, List.lookup] at hnd

theorem run_idsDistinct_witness :
    (∀ op ∈ sampleOps, op.InstallsDistinct) ∧
      IdsDistinct (run (fun _ => "") init sampleOps).items :=
  have h : ∀ op ∈ sampleOps, op.InstallsDistinct := by
    intro op hop
    simp only [sampleOps, List.mem_cons, List.mem_singleton, List.not_mem_nil, or_false] at hop
    rcases hop with rfl | rfl | rfl | rfl | rfl | rfl | rfl
    all_goals first
      | trivial
      | (intro v hv _
         cases hv
         exact ⟨_, rfl, by simp [recId, List.lookup]⟩)
  ⟨h, run_idsDistinct (fun _ => "") sampleOps h⟩

/-! ## Lemmas on the layout -/

section LayoutLemmas

variable {α : Type} [LinearOrderedField α]

theorem groupInsert_perm {ρ κ : Type} [DecidableEq κ] (d : ρ) (k : κ) :
    ∀ gs : List (κ × List ρ),
      ((groupInsert d k gs).flatMap Prod.snd).Perm (gs.flatMap Prod.snd ++ [d])
  | [] => by simp [groupInsert]
  | g :: gs => by
    unfold groupInsert
    by_cases h : g.1 = k
    · simp only [h, if_true, List.flatMap_cons]
      rw [List.append_assoc, List.append_assoc]
      exact List.Perm.append_left _ List.perm_append_comm
    · simp only [h, if_false, List.flatMap_cons, List.append_assoc]
      exact List.Perm.append_left _ (groupInsert_perm d k gs)

theorem groups_foldl_perm {ρ κ : Type} [DecidableEq κ] (key : ρ → κ) :
    ∀ (items : List ρ) (acc : List (κ × List ρ)),
      ((items.foldl (fun gs d => groupInsert d (key d) gs) acc).flatMap Prod.snd).Perm
        (acc.flatMap Prod.snd ++ items)
  | [], acc => by simp
  | d :: items, acc => by
    simp only [List.foldl_cons]
    refine (groups_foldl_perm key items _).trans ?_
    have := (groupInsert_perm d (key d) acc).append_right items
    simpa using this

/-- The groups of `d3.groups` hold every record once. -/
theorem groups_perm {ρ κ : Type} [DecidableEq κ] (key : ρ → κ) (items : List ρ) :
    ((groups key items).flatMap Prod.snd).Perm items := by
  simpa using groups_foldl_perm key items []

theorem groupPositions_getElem? (pi maxR : α) (gs : List (String × List (Item α)))
    (g : String × List (Item α)) (i : Nat) (hi : i < g.2.length) :
    (groupPositions pi maxR gs g)[i]? = some
      { d := g.2[i], angle := (groupAngles pi gs g.1).getD 0 + (offsets g.2.length i).getD 0,
        r := radius maxR g.2[i].proximity } := by
  unfold groupPositions
  rw [List.getElem?_zipWith', List.getElem?_range hi, List.getElem?_eq_getElem hi]
  rfl

theorem groupPositions_length (pi maxR : α) (gs : List (String × List (Item α)))
    (g : String × List (Item α)) : (groupPositions pi maxR gs g).length = g.2.length := by
  simp [groupPositions]

theorem groupPositions_map_d (pi maxR : α) (gs : List (String × List (Item α)))
    (g : String × List (Item α)) : (groupPositions pi maxR gs g).map (·.d) = g.2 := by
  apply List.ext_getElem?
  intro i
  by_cases hi : i < g.2.length
  · rw [List.getElem?_map, groupPositions_getElem? pi maxR gs g i hi,
      List.getElem?_eq_getElem hi]
    rfl
  · have h1 : g.2.length ≤ i := not_lt.mp hi
    rw [List.getElem?_eq_none (by simpa [groupPositions_length] using h1),
      List.getElem?_eq_none h1]

theorem positions_map_d (pi maxR : α) (items : List (Item α)) :
    (positions pi maxR items).map (·.d)
      = (groups (fun d => d.category) items).flatMap Prod.snd := by
  unfold positions
  rw [List.map_flatMap]
  congr 1
  funext g
  exact groupPositions_map_d pi maxR _ g

theorem positions_perm (pi maxR : α) (items : List (Item α)) :
    ((positions pi maxR items).map (·.d)).Perm items := by
  rw [positions_map_d]
  exact groups_perm _ items

theorem positions_length (pi maxR : α) (items : List (Item α)) :
    (positions pi maxR items).length = items.length := by
  have h := (positions_perm pi maxR items).length_eq
  simpa using h

theorem moveTarget_of_nodup {β : Type} (p : Point β) :
    ∀ (links : List (Link β)) (k : Nat) (l : Link β), links[k]? = some l →
      (links.map (·.id)).Nodup →
      moveTarget l.id p links = some (links.set k { l with target := p })
  | [], k, l, h, _ => by simp at h
  | x :: xs, 0, l, h, _ => by
    simp at h
    subst h
    simp [moveTarget]
  | x :: xs, k + 1, l, h, hnd => by
    simp only [List.getElem?_cons_succ] at h
    rw [List.map_cons, List.nodup_cons] at hnd
    have hne : ¬ x.id = l.id := by
      intro e
      apply hnd.1
      rw [e]
      exact List.mem_map_of_mem _ (List.getElem?_mem h)
    simp only [moveTarget, hne, if_false, List.set_cons_succ,
      moveTarget_of_nodup p xs k l h hnd.2, Option.map_some']

theorem draw_links_ids (cos sin : α → α) (pi : α) (items : List (Item α))
    (width height : α) :
    ((draw cos sin pi items width height).links.map (·.id)).Perm (items.map (·.id)) := by
  have h := (positions_perm pi (min width height * (42 / 100)) items).map (·.id)
  simpa [draw, List.map_map, Function.comp_def] using h

end LayoutLemmas

/-! ## Dragging a node -/

section Drag

variable {α : Type} [LinearOrderedField α]

/-- C5: after `draw` on records with pairwise distinct ids, a drag move of the node `k` to
`(px, py)` ends without an exception and, with `A = positions[k]` and `l = links[k]` (the
link of `A`, from the center), leaves `l` with the target `(px, py)` and its source,
strength and id as they were at index `k`, and every other link as it was; likewise the
line `k` gets `x2 = px`, `y2 = py` and every other line is as it was. -/
theorem onDrag_moves_only_own_target (cos sin : α → α) (pi : α) (items : List (Item α))
    (width height : α) (hids : (items.map (·.id)).Nodup) (k : Nat) (hk : k < items.length)
    (px py : α) :
    (onDrag (draw cos sin pi items width height) k px py).2 = none ∧
    ∃ (A : Position α) (l : Link α),
      (draw cos sin pi items width height).positions[k]? = some A ∧
      (draw cos sin pi items width height).links[k]? = some l ∧
      l.id = A.d.id ∧
      l.source = { x := (draw cos sin pi items width height).cx,
                   y := (draw cos sin pi items width height).cy } ∧
      (onDrag (draw cos sin pi items width height) k px py).1.links[k]?
        = some { source := l.source, target := { x := px, y := py },
                 strength := l.strength, id := l.id } ∧
      (∀ j, j ≠ k →
        (onDrag (draw cos sin pi items width height) k px py).1.links[j]?
          = (draw cos sin pi items width height).links[j]?) ∧
      (onDrag (draw cos sin pi items width height) k px py).1.links.length
        = (draw cos sin pi items width height).links.length ∧
      (onDrag (draw cos sin pi items width height) k px py).1.lines[k]?
        = ((draw cos sin pi items width height).lines[k]?).map
            (fun line => { line with x2 := px, y2 := py }) ∧
      (∀ j, j ≠ k →
        (onDrag (draw cos sin pi items width height) k px py).1.lines[j]?
          = (draw cos sin pi items width height).lines[j]?) := by
  have hlinks : (draw cos sin pi items width height).links
      = (draw cos sin pi items width height).positions.map fun d =>
        { source := { x := (draw cos sin pi items width height).cx,
                      y := (draw cos sin pi items width height).cy },
          target := { x := (draw cos sin pi items width height).cx + cos d.angle * d.r,
                      y := (draw cos sin pi items width height).cy + sin d.angle * d.r },
          strength := d.d.strength, id := d.d.id } := rfl
  have hlines : (draw cos sin pi items width height).lines
      = (draw cos sin pi items width height).links.map fun l =>
        { x1 := l.source.x, y1 := l.source.y, x2 := l.target.x, y2 := l.target.y,
          strokeWidth := linkWidth l.strength } := rfl
  have hnd : ((draw cos sin pi items width height).links.map (·.id)).Nodup :=
    (draw_links_ids cos sin pi items width height).nodup_iff.mpr hids
  have hlen : (draw cos sin pi items width height).positions.length = items.length :=
    positions_length _ _ _
  have hkp : k < (draw cos sin pi items width height).positions.length := by omega
  generalize draw cos sin pi items width height = D at *
  have hA : D.positions[k]? = some D.positions[k] := List.getElem?_eq_getElem hkp
  have hkl : k < D.links.length := by rw [hlinks]; simpa using hkp
  have hl : D.links[k]? = some D.links[k] := List.getElem?_eq_getElem hkl
  have hid : D.links[k].id = D.positions[k].d.id := by
    simp [hlinks]
  have hsrc : D.links[k].source = { x := D.cx, y := D.cy } := by
    simp [hlinks]
  have hmove : moveTarget D.positions[k].d.id { x := px, y := py } D.links
      = some (D.links.set k { D.links[k] with target := { x := px, y := py } }) := by
    rw [← hid]
    exact moveTarget_of_nodup { x := px, y := py } D.links k D.links[k] hl hnd
  have hres : onDrag D k px py =
      ({ D with
          nodes := D.nodes.modify (fun n => { n with x := px, y := py }) k,
          links := D.links.set k { D.links[k] with target := { x := px, y := py } },
          lines := List.zipWith
            (fun l line => if l.id = D.positions[k].d.id
              then { line with x2 := px, y2 := py } else line)
            D.links D.lines },
        none) := by
    simp only [onDrag, hA, hmove]
  have hline : ∀ j, (List.zipWith
        (fun l line => if l.id = D.positions[k].d.id
          then { line with x2 := px, y2 := py } else line) D.links D.lines)[j]?
      = (D.lines[j]?).map (fun line => if j = k
          then { line with x2 := px, y2 := py } else line) := by
    intro j
    rw [List.getElem?_zipWith', hlines, List.getElem?_map]
    cases hj : D.links[j]? with
    | none => simp
    | some lj =>
      have hjlt : j < D.links.length := by
        by_contra hcon
        rw [List.getElem?_eq_none (not_lt.mp hcon)] at hj
        cases hj
      have hiff : lj.id = D.positions[k].d.id ↔ j = k := by
        constructor
        · intro e
          have hjm : (D.links.map (·.id))[j]? = (D.links.map (·.id))[k]? := by
            rw [List.getElem?_map, List.getElem?_map, hj, hl]
            simp [e, hid]
          exact List.getElem?_inj (by simpa using hjlt) hnd hjm
        · intro e
          subst e
          rw [hl] at hj
          cases hj
          exact hid
      by_cases hjk : j = k
      · simp [hiff.mpr hjk, hjk]
      · have : ¬ lj.id = D.positions[k].d.id := fun e => hjk (hiff.mp e)
        simp [this, hjk]
  refine ⟨by rw [hres], D.positions[k], D.links[k], hA, hl, hid, hsrc, ?_, ?_, ?_, ?_, ?_⟩
  · rw [hres]
    simp [List.getElem?_set_self hkl]
  · intro j hj
    rw [hres]
    simp [List.getElem?_set_ne (Ne.symm hj)]
  · rw [hres]; simp
  · rw [hres]
    simp only [hline k, if_true]
  · intro j hj
    rw [hres]
    simp only [hline j, hj, if_false]
    simp

theorem onDrag_moves_only_own_target_witness :
    ((threeItems : List (Item ℚ)).map (·.id)).Nodup ∧
    1 < (threeItems : List (Item ℚ)).length ∧
    (onDrag (draw (fun _ => 1) (fun _ => 0) (22 / 7) (threeItems : List (Item ℚ)) 1000 500)
      1 10 20).2 = none :=
  ⟨by decide, by decide,
    (onDrag_moves_only_own_target (fun _ => 1) (fun _ => 0) (22 / 7)
      (threeItems : List (Item ℚ)) 1000 500 (by decide) 1 (by decide) 10 20).1⟩

end Drag

/-! ## Radial distance -/

section Radius

variable {α : Type} [LinearOrderedField α]

end Radius

/-! ## Offsets inside a group -/

section Offsets

variable {α : Type} [LinearOrderedField α]

end Offsets

/-! ## Base angles of the categories -/

section BaseAngles

end BaseAngles

end Mapper
